import Mathlib

/-!
Verification of the witr core: the Ancestry Builder (`BuildAncestry`,
process/process.go), the Source Detector (`Detect` and its classifier
chain, detect/detect.go with the per-platform `detectInit` variants) and
the Warning Engine (`Warnings`, detect/detect.go).

External effects are passed as explicit parameters:
  * the process reader is a finite association list `g : List (Int × Proc)`
    (the parent graph); `readG g pid` mirrors `Read(pid)`, which always sets
    the returned process's PID field to the queried pid;
  * `/proc/<pid>/cgroup` reads are a function `cg : Int → Option String`;
  * the launchd enrichment (`getLaunchdLabel`) is `ll : Int → String × String`
    (it returns a pair of empty strings on failure);
  * the Go `range` over the `supervisors` map has unspecified iteration
    order, so `detectSupervisor` takes the enumeration order `ord` as a
    parameter, which for the real program is some permutation of the
    registry entries;
  * the clock used by `time.Since` is a parameter `now` (nanoseconds), with
    process start times also in nanoseconds.
Confidences (Go float64 literals 0.2 .. 0.9) are modelled as rationals.
-/

/-- Whether `pat` occurs at the start of `l`. -/
def charsStartWith : List Char → List Char → Bool
  | _, [] => true
  | [], _ :: _ => false
  | a :: l, b :: m => a == b && charsStartWith l m

/-- Whether `pat` occurs anywhere in `l`. -/
def charsContain (pat : List Char) : List Char → Bool
  | [] => charsStartWith [] pat
  | a :: t => charsStartWith (a :: t) pat || charsContain pat t

/-- Go `strings.Contains s sub`, modelled on the character list. -/
def strContains (s sub : String) : Bool :=
  charsContain sub.toList s.toList

/-- Go `strings.ToLower`, modelled character-wise. -/
def strToLower (s : String) : String :=
  String.mk (s.toList.map Char.toLower)

/-- The `process.Process` struct (process/process.go). Timestamps are
nanoseconds since the epoch. -/
structure Proc where
  pid : Int
  ppid : Int
  command : String
  cmdline : String
  user : String
  startedAt : Int
  workingDir : String
  gitRepo : String
  gitBranch : String
  container : String
  service : String
  listeningPorts : List Int
  bindAddresses : List String
  health : String
  env : List String
deriving Repr, DecidableEq

/-- A zero-valued process, for building concrete examples. -/
def defProc : Proc :=
  { pid := 0, ppid := 0, command := "", cmdline := "", user := ""
    startedAt := 0, workingDir := "", gitRepo := "", gitBranch := ""
    container := "", service := "", listeningPorts := [], bindAddresses := []
    health := "", env := [] }

/-- `detect.SourceType` (detect/detect.go). -/
inductive SourceType where
  | container
  | systemd
  | launchd
  | supervisor
  | cron
  | shell
  | unknown
deriving Repr, DecidableEq

/-- `detect.Source` (detect/detect.go); `details` models the Go map. -/
structure Source where
  type : SourceType
  name : String
  confidence : Rat
  details : List (String × String)
deriving Repr, DecidableEq

/-- The two build targets of the detect package (`detect_darwin.go` and the
linux `detectInit` file). -/
inductive Platform where
  | linux
  | darwin
deriving Repr, DecidableEq

/-- `detectContainer` (detect/detect.go lines 123-135): scan every ancestor's
cgroup file for container-runtime markers. -/
def detectContainer (cg : Int → Option String) (ancestry : List Proc) : Option Source :=
  ancestry.findSome? fun p =>
    match cg p.pid with
    | none => none
    | some s =>
      if strContains s "docker" ∨ strContains s "containerd" ∨ strContains s "kubepods" then
        some { type := .container, name := "container", confidence := 9/10, details := [] }
      else
        none

/-- The static `supervisors` registry (detect/detect.go lines 138-144), in
source order. -/
def supervisors : List (String × String) :=
  [("pm2", "pm2"), ("pm2 god", "pm2"), ("supervisord", "supervisord"),
   ("gunicorn", "gunicorn"), ("uwsgi", "uwsgi"), ("s6-supervise", "s6"), ("s6", "s6"),
   ("runsv", "runit"), ("runit", "runit"), ("openrc", "openrc"), ("monit", "monit"),
   ("circusd", "circus"), ("circus", "circus"), ("daemontools", "daemontools"),
   ("tini", "tini"), ("docker-init", "docker-init")]

/-- Go map indexing `supervisors[cmd]` (deterministic key lookup). -/
def supLookup (cmd : String) : Option String :=
  (supervisors.find? fun e => e.1 == cmd).map fun e => e.2

/-- Body of `detectSupervisor`'s loop, iterating the reversed ancestry
(nearest-to-target first). `ord` is the enumeration order of the Go
`range supervisors` statement. -/
def detectSupervisorAux (ord : List (String × String)) : List Proc → Option Source
  | [] => none
  | p :: rest =>
    if strContains (strToLower p.command) "pm2" ∨ strContains (strToLower p.cmdline) "pm2" then
      some { type := .supervisor, name := "pm2", confidence := 9/10, details := [] }
    else
      match supLookup (strToLower p.command) with
      | some name => some { type := .supervisor, name := name, confidence := 7/10, details := [] }
      | none =>
        match ord.find? (fun e => strContains (strToLower p.cmdline) e.1) with
        | some e => some { type := .supervisor, name := e.2, confidence := 7/10, details := [] }
        | none => detectSupervisorAux ord rest

/-- `detectSupervisor` (detect/detect.go lines 146-168): iterate from the
target backward toward the root. -/
def detectSupervisor (ord : List (String × String)) (ancestry : List Proc) : Option Source :=
  detectSupervisorAux ord ancestry.reverse

/-- `detectCron` (detect/detect.go lines 170-178). -/
def detectCron (ancestry : List Proc) : Option Source :=
  ancestry.reverse.findSome? fun p =>
    if p.command = "cron" ∨ p.command = "crond" then
      some { type := .cron, name := "cron", confidence := 6/10, details := [] }
    else
      none

/-- The `shells` registry (detect/detect.go line 180). -/
def shells : List String := ["bash", "zsh", "sh", "fish"]

/-- `detectShell` (detect/detect.go lines 182-189). -/
def detectShell (ancestry : List Proc) : Option Source :=
  ancestry.reverse.findSome? fun p =>
    if shells.contains p.command then
      some { type := .shell, name := p.command, confidence := 5/10, details := [] }
    else
      none

/-- The linux `detectInit`: systemd as PID 1, confidence 0.8. -/
def detectInitLinux (ancestry : List Proc) : Option Source :=
  ancestry.findSome? fun p =>
    if p.pid = 1 ∧ p.command = "systemd" then
      some { type := .systemd, name := "systemd", confidence := 8/10, details := [] }
    else
      none

/-- The darwin `detectInit` (detect/detect_darwin.go lines 12-31): launchd as
PID 1; enrich with the launchd service label of the target when available,
else fall back to the generic 0.8 result. `ll` models `getLaunchdLabel`. -/
def detectInitDarwin (ll : Int → String × String) (ancestry : List Proc) : Option Source :=
  ancestry.findSome? fun p =>
    if p.pid = (1 : Int) ∧ p.command = "launchd" then
      match ancestry.getLast? with
      | some target =>
        let lbl := ll target.pid
        if lbl.1 ≠ "" then
          some { type := .launchd, name := lbl.1, confidence := 9/10
                 details := [("domain", lbl.2)] }
        else
          some { type := .launchd, name := "launchd", confidence := 8/10, details := [] }
      | none =>
        some { type := .launchd, name := "launchd", confidence := 8/10, details := [] }
    else
      none

/-- Platform dispatch for `detectInit`. -/
def detectInit : Platform → (Int → String × String) → List Proc → Option Source
  | .linux, _, ancestry => detectInitLinux ancestry
  | .darwin, ll, ancestry => detectInitDarwin ll ancestry

/-- `Detect` (detect/detect.go lines 48-65): fixed-priority classifier chain
with short-circuit, Unknown with confidence 0.2 when nothing matches. -/
def Detect (plat : Platform) (ll : Int → String × String) (cg : Int → Option String)
    (ord : List (String × String)) (ancestry : List Proc) : Source :=
  match detectContainer cg ancestry with
  | some s => s
  | none =>
    match detectSupervisor ord ancestry with
    | some s => s
    | none =>
      match detectCron ancestry with
      | some s => s
      | none =>
        match detectShell ancestry with
        | some s => s
        | none =>
          match detectInit plat ll ancestry with
          | some s => s
          | none => { type := .unknown, name := "", confidence := 2/10, details := [] }

/-- `isPublicBind` (detect/detect.go lines 113-120). -/
def isPublicBind (addrs : List String) : Bool :=
  addrs.any fun a => a = "0.0.0.0" ∨ a = "::"

/-- `time.Since(t).Hours()` with the clock `now`, both in nanoseconds. -/
def sinceHours (now t : Int) : Rat :=
  ((now - t : Int) : Rat) / 3600000000000

/-- The health rule of `Warnings`: the Go `switch` on the health label. -/
def healthWarn (last : Proc) : List String :=
  if last.health = "zombie" then ["Process is a zombie (defunct)"]
  else if last.health = "stopped" then ["Process is stopped"]
  else if last.health = "high-cpu" then ["Process is using high CPU (>2h total)"]
  else if last.health = "high-mem" then ["Process is using high memory (>1GB RSS)"]
  else []

/-- The public-exposure rule of `Warnings`. -/
def publicWarn (last : Proc) : List String :=
  if isPublicBind last.bindAddresses then ["Process is listening on a public interface"] else []

/-- The root-privilege rule of `Warnings`. -/
def rootWarn (last : Proc) : List String :=
  if last.user = "root" then ["Process is running as root"] else []

/-- The suspicious-working-directory rule of `Warnings`. -/
def dirWarn (last : Proc) : List String :=
  if last.workingDir = "/" ∨ last.workingDir = "/tmp" ∨ last.workingDir = "/var/tmp" then
    ["Process running from suspicious directory: " ++ last.workingDir]
  else []

/-- The longevity rule of `Warnings` (`time.Since(...).Hours() > 90*24`). -/
def ageWarn (now : Int) (last : Proc) : List String :=
  if sinceHours now last.startedAt > 90 * 24 then
    ["Process has been running for over 90 days"]
  else []

/-- The provenance rule of `Warnings` (re-runs the Source Detector). -/
def unknownWarn (plat : Platform) (ll : Int → String × String) (cg : Int → Option String)
    (ord : List (String × String)) (ancestry : List Proc) : List String :=
  if (Detect plat ll cg ord ancestry).type = .unknown then
    ["No known supervisor detected"]
  else []

/-- `Warnings` (detect/detect.go lines 68-111): independent rules over the
last (target) element, concatenated in source order. -/
def Warnings (plat : Platform) (ll : Int → String × String) (cg : Int → Option String)
    (ord : List (String × String)) (now : Int) (ancestry : List Proc) : List String :=
  match ancestry.getLast? with
  | none => []
  | some last =>
    healthWarn last ++ publicWarn last ++ rootWarn last ++ dirWarn last
      ++ ageWarn now last ++ unknownWarn plat ll cg ord ancestry

/-- The process reader over a finite parent graph, mirroring `Read` of
process/process_linux.go: on success the returned process's pid field is the
queried pid (`PID: pid` in the Go struct literal). -/
def readG (g : List (Int × Proc)) (pid : Int) : Option Proc :=
  match g.find? (fun e => e.1 == pid) with
  | some e => some { e.2 with pid := pid }
  | none => none

/-- The loop of `BuildAncestry` (process/process.go lines 43-54), with an
explicit fuel counting loop iterations; `none` means the fuel ran out before
the loop exited (shown below never to happen with fuel `stdFuel`). -/
def buildAux (g : List (Int × Proc)) : Nat → List Int → Int → List Proc → Option (List Proc)
  | 0, _, _, _ => none
  | fuel + 1, seen, pid, chain =>
    if pid > 0 ∧ pid ∉ seen then
      match readG g pid with
      | none => some chain
      | some p =>
        if p.pid = 1 ∨ p.ppid = 0 then some (p :: chain)
        else buildAux g fuel (pid :: seen) p.ppid (p :: chain)
    else
      some chain

/-- All identifiers occurring in the parent graph: every entry's pid and
parent pid, without duplicates. -/
def graphIds (g : List (Int × Proc)) : List Int :=
  (g.map Prod.fst ++ g.map fun e => e.2.ppid).dedup

/-- Fuel that always suffices: one more than the number of distinct
identifiers in the graph. -/
def stdFuel (g : List (Int × Proc)) : Nat :=
  (graphIds g).length + 1

/-- `BuildAncestry` (process/process.go lines 39-56): chain from the topmost
reachable ancestor down to the target; the Go error result is always nil, so
failure is reported solely as an empty chain. -/
def BuildAncestry (g : List (Int × Proc)) (pid : Int) : List Proc :=
  (buildAux g (stdFuel g) [] pid []).getD []

/-! Concrete objects used in witnesses and counterexamples. -/

/-- Two-element parent cycle: 100's parent is 200 and 200's parent is 100. -/
def cycleG : List (Int × Proc) :=
  [(100, { defProc with ppid := 200 }), (200, { defProc with ppid := 100 })]

/-- A target whose parent (50) is not readable. -/
def truncG : List (Int × Proc) :=
  [(100, { defProc with ppid := 50 })]

/-- The process `readG truncG 100` returns. -/
def truncTarget : Proc :=
  { defProc with pid := 100, ppid := 50 }

/-- A cgroup reader that fails for every pid. -/
def cg0 : Int → Option String := fun _ => none

/-- A launchd-label lookup that always fails. -/
def ll0 : Int → String × String := fun _ => ("", "")

/-- A target whose command line matches two registry names (`runsv` and
`monit`) that map to different canonical supervisor names. -/
def anc5 : List Proc := [{ defProc with command := "node", cmdline := "runsv monit" }]

/-- The supervisor registry in a different enumeration order (the `monit`
entry first), as the Go map `range` may produce. -/
def supOrd2 : List (String × String) :=
  ("monit", "monit") ::
  [("pm2", "pm2"), ("pm2 god", "pm2"), ("supervisord", "supervisord"),
   ("gunicorn", "gunicorn"), ("uwsgi", "uwsgi"), ("s6-supervise", "s6"), ("s6", "s6"),
   ("runsv", "runit"), ("runit", "runit"), ("openrc", "openrc"),
   ("circusd", "circus"), ("circus", "circus"), ("daemontools", "daemontools"),
   ("tini", "tini"), ("docker-init", "docker-init")]

/-- A root-owned, publicly bound, healthy target started 120 days before
`now7`, in a benign working directory. -/
def tgt7 : Proc :=
  { defProc with
    pid := 300
    ppid := 1
    command := "myjob"
    user := "root"
    bindAddresses := ["0.0.0.0"]
    health := "healthy"
    startedAt := 0
    workingDir := "/home/app" }

/-- Like `tgt7` but running from `/tmp`. -/
def tgt7tmp : Proc :=
  { tgt7 with workingDir := "/tmp" }

/-- A systemd init ancestor. -/
def initProc : Proc := { defProc with pid := 1, command := "systemd" }

/-- Ancestry for the warning scenario: systemd, then the target. -/
def anc7 : List Proc := [initProc, tgt7]

/-- A clock 120 days (in nanoseconds) after `tgt7.startedAt`. -/
def now7 : Int := 120 * 24 * 3600 * 1000000000

/-- A cgroup reader with kubernetes pod evidence at pid 99. -/
def cgK : Int → Option String := fun p => if p = (99 : Int) then some "kubepods" else none

/-- An ancestry containing both a registered supervisor name (supervisord)
and container evidence (pid 99's cgroup). -/
def ancK : List Proc :=
  [{ defProc with pid := 7, command := "supervisord" },
   { defProc with pid := 99, command := "node" }]

/-- A launchd init ancestor. -/
def launchdProc : Proc := { defProc with pid := 1, command := "launchd" }

/-- A target for the darwin enrichment example. -/
def t42 : Proc := { defProc with pid := 42 }

/-- Enrichment lookup resolving pid 42 to a service label. -/
def ll9 : Int → String × String :=
  fun p => if p = (42 : Int) then ("com.example.app", "system") else ("", "")

/-- A pm2-managed process. -/
def pm2Proc : Proc := { defProc with command := "pm2", cmdline := "pm2 god daemon" }

/-! Basic facts about the process reader and the ancestry loop. -/

lemma readG_pid {g : List (Int × Proc)} {pid : Int} {p : Proc}
    (h : readG g pid = some p) : p.pid = pid := by
  unfold readG at h
  cases hf : g.find? (fun e => e.1 == pid) with
  | none => rw [hf] at h; cases h
  | some e => rw [hf] at h; cases h; rfl

lemma readG_mem_keys {g : List (Int × Proc)} {pid : Int} {p : Proc}
    (h : readG g pid = some p) : pid ∈ g.map Prod.fst := by
  unfold readG at h
  cases hf : g.find? (fun e => e.1 == pid) with
  | none => rw [hf] at h; cases h
  | some e =>
    have hmem := List.mem_of_find?_eq_some hf
    have hbeq := List.find?_some hf
    have : e.1 = pid := by simpa using hbeq
    subst this
    exact List.mem_map_of_mem Prod.fst hmem

lemma buildAux_mono {g : List (Int × Proc)} :
    ∀ {fuel₁ fuel₂ : Nat} {seen : List Int} {pid : Int} {chain res : List Proc},
      buildAux g fuel₁ seen pid chain = some res → fuel₁ ≤ fuel₂ →
      buildAux g fuel₂ seen pid chain = some res := by
  intro fuel₁
  induction fuel₁ with
  | zero => intro fuel₂ seen pid chain res h _; cases h
  | succ n ih =>
    intro fuel₂ seen pid chain res h hle
    cases fuel₂ with
    | zero => exact absurd hle (Nat.not_succ_le_zero n)
    | succ m =>
      have hle' : n ≤ m := Nat.succ_le_succ_iff.mp hle
      simp only [buildAux] at h ⊢
      by_cases hg : pid > 0 ∧ pid ∉ seen
      · rw [if_pos hg] at h ⊢
        cases hr : readG g pid with
        | none => rw [hr] at h; exact h
        | some p =>
          rw [hr] at h
          have h' : (if p.pid = 1 ∨ p.ppid = 0 then some (p :: chain)
              else buildAux g n (pid :: seen) p.ppid (p :: chain)) = some res := h
          show (if p.pid = 1 ∨ p.ppid = 0 then some (p :: chain)
              else buildAux g m (pid :: seen) p.ppid (p :: chain)) = some res
          by_cases hi : p.pid = 1 ∨ p.ppid = 0
          · rw [if_pos hi] at h' ⊢; exact h'
          · rw [if_neg hi] at h' ⊢; exact ih h' hle'
      · rw [if_neg hg] at h ⊢; exact h

lemma filter_not_mem_sub_length {l seen : List Int} {x : Int} :
    (l.filter fun k => decide (k ∉ x :: seen)).length ≤
      (l.filter fun k => decide (k ∉ seen)).length := by
  apply List.Sublist.length_le
  apply List.monotone_filter_right
  intro a ha
  simp only [decide_eq_true_eq] at ha ⊢
  exact fun hm => ha (List.mem_cons_of_mem _ hm)

lemma filter_not_mem_cons_length_lt {l seen : List Int} {x : Int}
    (hx : x ∈ l) (hxs : x ∉ seen) :
    (l.filter fun k => decide (k ∉ x :: seen)).length <
      (l.filter fun k => decide (k ∉ seen)).length := by
  induction l with
  | nil => cases hx
  | cons a t ih =>
    by_cases hax : a = x
    · subst hax
      have h1 : (decide (a ∉ a :: seen)) = false := by simp
      have h2 : (decide (a ∉ seen)) = true := by simpa using hxs
      simp only [List.filter_cons, h1, h2, List.length_cons, if_neg, if_pos,
        Bool.false_eq_true, ite_false, ite_true]
      exact Nat.lt_succ_of_le filter_not_mem_sub_length
    · have hx' : x ∈ t := List.mem_of_ne_of_mem (fun he => hax he.symm) hx
      by_cases has : a ∈ seen
      · have h1 : (decide (a ∉ x :: seen)) = false := by
          simp [List.mem_cons_of_mem _ has]
        have h2 : (decide (a ∉ seen)) = false := by simpa using has
        simp only [List.filter_cons, h1, h2, Bool.false_eq_true, ite_false]
        exact ih hx'
      · have h1 : (decide (a ∉ x :: seen)) = true := by
          simp only [decide_eq_true_eq, List.mem_cons]
          exact fun hc => hc.elim hax has
        have h2 : (decide (a ∉ seen)) = true := by simpa using has
        simp only [List.filter_cons, h1, h2, ite_true, List.length_cons]
        exact Nat.succ_lt_succ (ih hx')

lemma buildAux_total {g : List (Int × Proc)} :
    ∀ {fuel : Nat} {seen : List Int} {pid : Int} {chain : List Proc},
      ((g.map Prod.fst).dedup.filter fun k => decide (k ∉ seen)).length < fuel →
      (buildAux g fuel seen pid chain).isSome := by
  intro fuel
  induction fuel with
  | zero => intro seen pid chain h; exact absurd h (Nat.not_lt_zero _)
  | succ n ih =>
    intro seen pid chain h
    simp only [buildAux]
    by_cases hg : pid > 0 ∧ pid ∉ seen
    · rw [if_pos hg]
      cases hr : readG g pid with
      | none => simp
      | some p =>
        show (if p.pid = 1 ∨ p.ppid = 0 then some (p :: chain)
            else buildAux g n (pid :: seen) p.ppid (p :: chain)).isSome
        by_cases hi : p.pid = 1 ∨ p.ppid = 0
        · rw [if_pos hi]; simp
        · rw [if_neg hi]
          apply ih
          have hkey : pid ∈ (g.map Prod.fst).dedup :=
            List.mem_dedup.mpr (readG_mem_keys hr)
          exact Nat.lt_of_lt_of_le (filter_not_mem_cons_length_lt hkey hg.2)
            (Nat.lt_succ_iff.mp h)
    · rw [if_neg hg]; simp

lemma keys_dedup_le_graphIds (g : List (Int × Proc)) :
    ((g.map Prod.fst).dedup).length ≤ (graphIds g).length := by
  unfold graphIds
  rw [← List.card_toFinset, ← List.card_toFinset]
  apply Finset.card_le_card
  intro a ha
  rw [List.mem_toFinset] at ha ⊢
  exact List.mem_append_left _ ha

lemma buildAux_stdFuel_isSome (g : List (Int × Proc)) (pid : Int) :
    (buildAux g (stdFuel g) [] pid []).isSome := by
  apply buildAux_total
  have hall : ∀ k ∈ (g.map Prod.fst).dedup, (decide (k ∉ ([] : List Int))) = true := by
    intro k _; simp
  rw [List.filter_eq_self.mpr hall]
  exact Nat.lt_of_le_of_lt (keys_dedup_le_graphIds g) (Nat.lt_succ_self _)

lemma buildAncestry_eq_some (g : List (Int × Proc)) (pid : Int) :
    buildAux g (stdFuel g) [] pid [] = some (BuildAncestry g pid) := by
  obtain ⟨r, hr⟩ := Option.isSome_iff_exists.mp (buildAux_stdFuel_isSome g pid)
  rw [BuildAncestry, hr]
  rfl

lemma buildAux_spec (g : List (Int × Proc)) :
    ∀ (fuel : Nat) (seen : List Int) (pid : Int) (chain res : List Proc),
      buildAux g fuel seen pid chain = some res →
      ∃ ext : List Proc, res = ext ++ chain ∧
        (ext.map fun q => q.pid).Nodup ∧
        (∀ q ∈ ext, q.pid ∉ seen) ∧
        (ext = [] → ¬ pid > 0 ∨ pid ∈ seen ∨ readG g pid = none) ∧
        (∀ f, ext.head? = some f →
          f.pid = 1 ∨ f.ppid = 0 ∨ ¬ f.ppid > 0 ∨ readG g f.ppid = none ∨
            f.ppid ∈ ((ext.map fun q => q.pid) ++ seen)) ∧
        (∀ q, readG g pid = some q → pid > 0 → pid ∉ seen → ext.getLast? = some q) := by
  intro fuel
  induction fuel with
  | zero => intro seen pid chain res h; cases h
  | succ n ih =>
    intro seen pid chain res h
    simp only [buildAux] at h
    by_cases hg : pid > 0 ∧ pid ∉ seen
    · rw [if_pos hg] at h
      cases hr : readG g pid with
      | none =>
        rw [hr] at h
        have hres : res = chain := (Option.some.inj h).symm
        refine ⟨[], by simp [hres], by simp, by simp, ?_, by simp, ?_⟩
        · intro _
          exact Or.inr (Or.inr rfl)
        · intro q hq
          cases hq
      | some p =>
        rw [hr] at h
        have h' : (if p.pid = 1 ∨ p.ppid = 0 then some (p :: chain)
            else buildAux g n (pid :: seen) p.ppid (p :: chain)) = some res := h
        have hpp : p.pid = pid := readG_pid hr
        by_cases hi : p.pid = 1 ∨ p.ppid = 0
        · rw [if_pos hi] at h'
          have hres : res = p :: chain := (Option.some.inj h').symm
          refine ⟨[p], by simp [hres], by simp, ?_, ?_, ?_, ?_⟩
          · intro q hq
            rw [List.mem_singleton] at hq
            subst hq
            rw [hpp]
            exact hg.2
          · intro he
            simp at he
          · intro f hf
            have hf' : p = f := by simpa using hf
            subst hf'
            rcases hi with h1 | h2
            · exact Or.inl h1
            · exact Or.inr (Or.inl h2)
          · intro q hq _ _
            have : p = q := Option.some.inj hq
            subst this
            rfl
        · rw [if_neg hi] at h'
          obtain ⟨ext', hres, hnodup, hnotseen, hempty, hhead, _⟩ :=
            ih (pid :: seen) p.ppid (p :: chain) res h'
          have hp_not : p.pid ∉ ext'.map (fun q => q.pid) := by
            intro hmem
            obtain ⟨q, hq, hqe⟩ := List.mem_map.mp hmem
            apply hnotseen q hq
            rw [hqe, hpp]
            exact List.mem_cons_self pid seen
          refine ⟨ext' ++ [p], ?_, ?_, ?_, ?_, ?_, ?_⟩
          · rw [hres]
            simp
          · rw [List.map_append]
            refine List.Nodup.append hnodup (List.nodup_singleton _) ?_
            simp only [List.map_cons, List.map_nil]
            rw [List.disjoint_singleton]
            exact hp_not
          · intro q hq
            rcases List.mem_append.mp hq with hq1 | hq2
            · intro hc
              exact hnotseen q hq1 (List.mem_cons_of_mem _ hc)
            · rw [List.mem_singleton] at hq2
              subst hq2
              rw [hpp]
              exact hg.2
          · intro he
            simp at he
          · intro f hf
            cases hext : ext' with
            | nil =>
              subst hext
              have hf' : p = f := by simpa using hf
              subst hf'
              rcases hempty rfl with hs1 | hs2 | hs3
              · exact Or.inr (Or.inr (Or.inl hs1))
              · rcases List.mem_cons.mp hs2 with he1 | he2
                · refine Or.inr (Or.inr (Or.inr (Or.inr ?_)))
                  simp [he1, hpp]
                · refine Or.inr (Or.inr (Or.inr (Or.inr ?_)))
                  exact List.mem_append_right _ he2
              · exact Or.inr (Or.inr (Or.inr (Or.inl hs3)))
            | cons f' t' =>
              subst hext
              have hf' : f' = f := by
                rw [List.cons_append] at hf
                simpa using hf
              subst hf'
              rcases hhead f' (by simp) with h1 | h2 | h3 | h4 | h5
              · exact Or.inl h1
              · exact Or.inr (Or.inl h2)
              · exact Or.inr (Or.inr (Or.inl h3))
              · exact Or.inr (Or.inr (Or.inr (Or.inl h4)))
              · refine Or.inr (Or.inr (Or.inr (Or.inr ?_)))
                simp only [List.map_append, List.map_cons, List.map_nil, List.mem_append,
                  List.mem_cons, List.mem_singleton, List.not_mem_nil, or_false] at h5 ⊢
                rw [hpp]
                tauto
          · intro q hq _ _
            have : p = q := Option.some.inj hq
            subst this
            exact List.getLast?_concat _
    · rw [if_neg hg] at h
      have hres : res = chain := (Option.some.inj h).symm
      refine ⟨[], by simp [hres], by simp, by simp, ?_, by simp, ?_⟩
      · intro _
        rcases not_and_or.mp hg with h1 | h2
        · exact Or.inl h1
        · exact Or.inr (Or.inl (not_not.mp h2))
      · intro q _ hpos hseen
        exact absurd ⟨hpos, hseen⟩ hg

/-- C2: for every parent graph, including cyclic ones, the ancestry loop
terminates within N iterations, where N is the number of distinct identifiers
in the graph: fuel N + 1 always yields a result (the extra unit only evaluates
the final exit condition), and any larger fuel yields the same result; on the
two-element cycle 100 ↔ 200, `BuildAncestry 100` returns a chain of length at
most 2. -/
theorem buildAncestry_terminates (g : List (Int × Proc)) (pid : Int) :
    (buildAux g ((graphIds g).length + 1) [] pid []).isSome ∧
    (∀ fuel, (graphIds g).length + 1 ≤ fuel →
      buildAux g fuel [] pid [] = buildAux g ((graphIds g).length + 1) [] pid []) ∧
    (BuildAncestry cycleG 100).length ≤ 2 := by
  refine ⟨buildAux_stdFuel_isSome g pid, ?_, by decide⟩
  intro fuel hle
  obtain ⟨r, hr⟩ := Option.isSome_iff_exists.mp (buildAux_stdFuel_isSome g pid)
  have hr' : buildAux g ((graphIds g).length + 1) [] pid [] = some r := hr
  rw [hr']
  exact buildAux_mono hr' hle

/-- Witness for C2 at the concrete cycle graph. -/
theorem buildAncestry_terminates_witness :
    buildAux cycleG 5 [] 100 [] = buildAux cycleG ((graphIds cycleG).length + 1) [] 100 [] :=
  (buildAncestry_terminates cycleG 100).2.1 5 (by decide)

/-- C3 counterexample: on a graph whose target (pid 100) is readable but
whose parent (pid 50) is not, the first element of the ancestry has neither
identifier 1 nor parent identifier 0, refuting the claimed first-element
invariant as stated. -/
theorem buildAncestry_first_element_cex :
    (readG truncG 100).isSome ∧
    ∃ f, (BuildAncestry truncG 100).head? = some f ∧ ¬(f.pid = 1 ∨ f.ppid = 0) := by
  refine ⟨by decide, truncTarget, by decide, by decide⟩

/-- C3 (amended): for a readable target, the chain's last element is the
process read at the requested identifier, identifiers are duplicate-free, and
the first element either is init (pid 1), or its parent identifier is
non-positive, unreadable, or already in the chain (the cycle/truncation stop
conditions of the loop). -/
theorem buildAncestry_invariants (g : List (Int × Proc)) (pid : Int) (p : Proc)
    (hpos : 0 < pid) (hr : readG g pid = some p) :
    p.pid = pid ∧
    (BuildAncestry g pid).getLast? = some p ∧
    ((BuildAncestry g pid).map fun q => q.pid).Nodup ∧
    (∀ f, (BuildAncestry g pid).head? = some f →
      f.pid = 1 ∨ f.ppid ≤ 0 ∨ readG g f.ppid = none ∨
        f.ppid ∈ ((BuildAncestry g pid).map fun q => q.pid)) := by
  have hb := buildAncestry_eq_some g pid
  obtain ⟨ext, hres, hnodup, _, _, hhead, hlast⟩ :=
    buildAux_spec g (stdFuel g) [] pid [] (BuildAncestry g pid) hb
  rw [List.append_nil] at hres
  refine ⟨readG_pid hr, ?_, ?_, ?_⟩
  · rw [hres]
    exact hlast p hr hpos (List.not_mem_nil pid)
  · rw [hres]
    exact hnodup
  · intro f hf
    rw [hres] at hf
    rcases hhead f hf with h1 | h2 | h3 | h4 | h5
    · exact Or.inl h1
    · exact Or.inr (Or.inl (le_of_eq h2))
    · exact Or.inr (Or.inl (not_lt.mp h3))
    · exact Or.inr (Or.inr (Or.inl h4))
    · refine Or.inr (Or.inr (Or.inr ?_))
      rw [hres]
      simpa using h5

/-- Witness for C3 (amended) at the truncated graph. -/
theorem buildAncestry_invariants_witness :
    ((BuildAncestry truncG 100).map fun q => q.pid).Nodup ∧
    (BuildAncestry truncG 100).getLast? = some truncTarget :=
  ⟨(buildAncestry_invariants truncG 100 truncTarget (by decide) (by decide)).2.2.1,
   (buildAncestry_invariants truncG 100 truncTarget (by decide) (by decide)).2.1⟩

/-- C4: the Go error result of `BuildAncestry` is always nil, so failure is
reported via the chain itself: if the target cannot be read the chain is
empty; if the target is readable the chain is non-empty and ends at the
target (reads failing further up only truncate the upward part). -/
theorem buildAncestry_failure_modes (g : List (Int × Proc)) (pid : Int) (hpos : 0 < pid) :
    (readG g pid = none → BuildAncestry g pid = []) ∧
    (∀ p, readG g pid = some p →
      BuildAncestry g pid ≠ [] ∧ (BuildAncestry g pid).getLast? = some p) := by
  constructor
  · intro hr
    have h1 : buildAux g (stdFuel g) [] pid [] = some [] := by
      show buildAux g ((graphIds g).length + 1) [] pid [] = some []
      simp only [buildAux]
      rw [if_pos ⟨hpos, List.not_mem_nil pid⟩, hr]
    rw [BuildAncestry, h1]
    rfl
  · intro p hr
    have hb := buildAncestry_eq_some g pid
    obtain ⟨ext, hres, _, _, _, _, hlast⟩ :=
      buildAux_spec g (stdFuel g) [] pid [] (BuildAncestry g pid) hb
    have hl : ext.getLast? = some p := hlast p hr hpos (List.not_mem_nil pid)
    rw [List.append_nil] at hres
    constructor
    · rw [hres]
      intro hne
      rw [hne] at hl
      simp at hl
    · rw [hres]
      exact hl

/-- Witness for C4 at the truncated graph. -/
theorem buildAncestry_failure_modes_witness :
    BuildAncestry truncG 100 ≠ [] ∧ (BuildAncestry truncG 100).getLast? = some truncTarget :=
  (buildAncestry_failure_modes truncG 100 (by decide)).2 truncTarget (by decide)

lemma findSome?_const_of_exists {α β : Type} {f : α → Option β} {c : β}
    (hf : ∀ a b, f a = some b → b = c) :
    ∀ l : List α, (∃ a ∈ l, (f a).isSome) → l.findSome? f = some c := by
  intro l
  induction l with
  | nil => intro h; simp at h
  | cons a t ih =>
    intro h
    rw [List.findSome?_cons]
    cases hfa : f a with
    | some b => rw [hf a b hfa]
    | none =>
      rcases h with ⟨x, hx, hs⟩
      rcases List.mem_cons.mp hx with hx1 | hx2
      · subst hx1
        rw [hfa] at hs
        cases hs
      · exact ih ⟨x, hx2, hs⟩

lemma detectContainer_of_evidence {cg : Int → Option String} {anc : List Proc}
    (h : ∃ p ∈ anc, ∃ s, cg p.pid = some s ∧
      (strContains s "docker" ∨ strContains s "containerd" ∨ strContains s "kubepods")) :
    detectContainer cg anc =
      some { type := .container, name := "container", confidence := 9/10, details := [] } := by
  apply findSome?_const_of_exists
  · intro p b hb
    cases hcg : cg p.pid with
    | none => rw [hcg] at hb; cases hb
    | some s =>
      rw [hcg] at hb
      have hb' : (if strContains s "docker" ∨ strContains s "containerd" ∨ strContains s "kubepods"
          then some { type := SourceType.container, name := "container", confidence := 9/10,
                      details := ([] : List (String × String)) }
          else none) = some b := hb
      by_cases hm : strContains s "docker" ∨ strContains s "containerd" ∨ strContains s "kubepods"
      · rw [if_pos hm] at hb'
        exact (Option.some.inj hb').symm
      · rw [if_neg hm] at hb'
        cases hb'
  · rcases h with ⟨p, hp, s, hcg, hm⟩
    refine ⟨p, hp, ?_⟩
    rw [hcg]
    show (if strContains s "docker" ∨ strContains s "containerd" ∨ strContains s "kubepods"
        then some ({ type := SourceType.container, name := "container", confidence := 9/10,
                     details := [] } : Source)
        else none).isSome = true
    rw [if_pos hm]
    rfl

/-- C1: the Source Detector evaluates container > supervisor > cron > shell >
init with short-circuit: any ancestry with container evidence (regardless of
any supervisor names present, or where the evidence sits) classifies as
container with confidence 0.9, and when no classifier matches the result is
Unknown with confidence 0.2 and empty name. -/
theorem detect_priority_order (plat : Platform) (ll : Int → String × String)
    (cg : Int → Option String) (ord : List (String × String)) (anc : List Proc) :
    ((∃ p ∈ anc, ∃ s, cg p.pid = some s ∧
        (strContains s "docker" ∨ strContains s "containerd" ∨ strContains s "kubepods")) →
      Detect plat ll cg ord anc =
        { type := .container, name := "container", confidence := 9/10, details := [] }) ∧
    (detectContainer cg anc = none → detectSupervisor ord anc = none →
      detectCron anc = none → detectShell anc = none → detectInit plat ll anc = none →
      Detect plat ll cg ord anc =
        { type := .unknown, name := "", confidence := 2/10, details := [] }) := by
  constructor
  · intro h
    rw [Detect, detectContainer_of_evidence h]
  · intro h1 h2 h3 h4 h5
    rw [Detect, h1, h2, h3, h4, h5]

/-- Witness for C1: an ancestry with a registered supervisor name
(supervisord) and kubernetes cgroup evidence classifies as container. -/
theorem detect_priority_order_witness :
    Detect .linux ll0 cgK supervisors ancK =
      { type := .container, name := "container", confidence := 9/10, details := [] } :=
  (detect_priority_order .linux ll0 cgK supervisors ancK).1
    ⟨{ defProc with pid := 99, command := "node" }, by decide, "kubepods", by decide, by decide⟩

/-- C10: on the empty ancestry both core functions are total and well
defined: `Warnings` returns no warnings and `Detect` returns Unknown with
confidence 0.2. -/
theorem detect_warnings_empty_ancestry (plat : Platform) (ll : Int → String × String)
    (cg : Int → Option String) (ord : List (String × String)) (now : Int) :
    Warnings plat ll cg ord now [] = [] ∧
    Detect plat ll cg ord [] =
      { type := .unknown, name := "", confidence := 2/10, details := [] } := by
  refine ⟨rfl, ?_⟩
  cases plat <;> rfl

/-- Witness for C10 at concrete parameters. -/
theorem detect_warnings_empty_ancestry_witness :
    Warnings .darwin ll0 cg0 supervisors 0 [] = [] :=
  (detect_warnings_empty_ancestry .darwin ll0 cg0 supervisors 0).1

lemma detectSupervisorAux_cons (ord : List (String × String)) (p : Proc) (rest : List Proc) :
    detectSupervisorAux ord (p :: rest) =
      match detectSupervisorAux ord [p] with
      | some s => some s
      | none => detectSupervisorAux ord rest := by
  by_cases h1 : strContains (strToLower p.command) "pm2" ∨ strContains (strToLower p.cmdline) "pm2"
  · simp only [detectSupervisorAux, if_pos h1]
  · simp only [detectSupervisorAux, if_neg h1]
    cases h2 : supLookup (strToLower p.command) with
    | some nm => rfl
    | none =>
      cases h3 : ord.find? (fun e => strContains (strToLower p.cmdline) e.1) with
      | some e => rfl
      | none => rfl

/-- C6: the supervisor classifier scans ancestors nearest-to-target first
(the last ancestry element is examined first, short-circuiting on a match),
and per ancestor returns: pm2 with confidence 0.9 on a pm2 name/command-line
substring match; the registry name with confidence 0.7 on an exact
lower-cased short-command match; and the registry name with confidence 0.7 on
a substring match of a registry key against the lower-cased command line. -/
theorem detectSupervisor_scan (ord : List (String × String)) (xs : List Proc) (p : Proc) :
    (detectSupervisor ord (xs ++ [p]) =
      match detectSupervisorAux ord [p] with
      | some s => some s
      | none => detectSupervisor ord xs) ∧
    ((strContains (strToLower p.command) "pm2" ∨ strContains (strToLower p.cmdline) "pm2") →
      detectSupervisorAux ord [p] =
        some { type := .supervisor, name := "pm2", confidence := 9/10, details := [] }) ∧
    (∀ nm, ¬(strContains (strToLower p.command) "pm2" ∨ strContains (strToLower p.cmdline) "pm2") →
      supLookup (strToLower p.command) = some nm →
      detectSupervisorAux ord [p] =
        some { type := .supervisor, name := nm, confidence := 7/10, details := [] }) ∧
    (∀ k nm, ¬(strContains (strToLower p.command) "pm2" ∨ strContains (strToLower p.cmdline) "pm2") →
      supLookup (strToLower p.command) = none →
      ord.find? (fun e => strContains (strToLower p.cmdline) e.1) = some (k, nm) →
      detectSupervisorAux ord [p] =
        some { type := .supervisor, name := nm, confidence := 7/10, details := [] }) := by
  refine ⟨?_, ?_, ?_, ?_⟩
  · rw [detectSupervisor, detectSupervisor, List.reverse_append]
    simp only [List.reverse_cons, List.reverse_nil, List.nil_append, List.singleton_append]
    exact detectSupervisorAux_cons ord p xs.reverse
  · intro h
    simp only [detectSupervisorAux, if_pos h]
  · intro nm h hl
    simp only [detectSupervisorAux, if_neg h, hl]
  · intro k nm h hl hf
    simp only [detectSupervisorAux, if_neg h, hl, hf]

/-- Witness for C6: a pm2 ancestor matches with name pm2 and confidence 0.9. -/
theorem detectSupervisor_scan_witness :
    detectSupervisorAux supervisors [pm2Proc] =
      some { type := .supervisor, name := "pm2", confidence := 9/10, details := [] } :=
  (detectSupervisor_scan supervisors [] pm2Proc).2.1 (by decide)

lemma detectSupervisorAux_perm {ord₁ ord₂ : List (String × String)}
    (hmem : ∀ e, e ∈ ord₁ ↔ e ∈ ord₂) :
    ∀ l : List Proc,
      Option.map (fun s => (s.type, s.confidence)) (detectSupervisorAux ord₁ l) =
      Option.map (fun s => (s.type, s.confidence)) (detectSupervisorAux ord₂ l) := by
  intro l
  induction l with
  | nil => rfl
  | cons p rest ih =>
    by_cases h1 : strContains (strToLower p.command) "pm2" ∨
        strContains (strToLower p.cmdline) "pm2"
    · simp only [detectSupervisorAux, if_pos h1]
    · simp only [detectSupervisorAux, if_neg h1]
      cases h2 : supLookup (strToLower p.command) with
      | some nm => rfl
      | none =>
        cases h3 : ord₁.find? (fun e => strContains (strToLower p.cmdline) e.1) with
        | some e =>
          have hex : ∃ x ∈ ord₂, strContains (strToLower p.cmdline) x.1 := by
            have he := List.mem_of_find?_eq_some h3
            have hp := List.find?_some h3
            exact ⟨e, (hmem e).mp he, hp⟩
          have hs : (ord₂.find? (fun e => strContains (strToLower p.cmdline) e.1)).isSome :=
            List.find?_isSome.mpr hex
          obtain ⟨e₂, he₂⟩ := Option.isSome_iff_exists.mp hs
          rw [he₂]
          rfl
        | none =>
          have hnone : ord₂.find? (fun e => strContains (strToLower p.cmdline) e.1) = none := by
            rw [List.find?_eq_none] at h3 ⊢
            intro a ha
            exact h3 a ((hmem a).mpr ha)
          rw [hnone]
          exact ih

/-- C5 counterexample: the Go `range` over the supervisors map has
unspecified order, and for a command line matching two registry keys with
different canonical names (`runsv` → runit, `monit` → monit) two valid
enumeration orders of the same registry make `Detect` return different Name
fields, so `detect` is not deterministic including Name as claimed. -/
theorem detect_name_order_dependent :
    supOrd2.Perm supervisors ∧
    (Detect .linux ll0 cg0 supervisors anc5).name ≠
      (Detect .linux ll0 cg0 supOrd2 anc5).name := by
  constructor
  · decide
  · decide

/-- C5 (amended): `detect` is deterministic given fixed external results up
to the registry enumeration order: for any two enumeration orders of the
supervisors registry, the Type and Confidence of the result agree (only the
Name of the supervisor fallback match can differ). -/
theorem detect_deterministic_up_to_order (plat : Platform) (ll : Int → String × String)
    (cg : Int → Option String) (ord₁ ord₂ : List (String × String)) (anc : List Proc)
    (h₁ : ord₁.Perm supervisors) (h₂ : ord₂.Perm supervisors) :
    (Detect plat ll cg ord₁ anc).type = (Detect plat ll cg ord₂ anc).type ∧
    (Detect plat ll cg ord₁ anc).confidence = (Detect plat ll cg ord₂ anc).confidence := by
  have hmem : ∀ e, e ∈ ord₁ ↔ e ∈ ord₂ := fun e => h₁.mem_iff.trans h₂.mem_iff.symm
  have hperm := detectSupervisorAux_perm hmem anc.reverse
  rw [Detect, Detect]
  cases hc : detectContainer cg anc with
  | some s => exact ⟨rfl, rfl⟩
  | none =>
    cases hs₁ : detectSupervisor ord₁ anc with
    | some s₁ =>
      cases hs₂ : detectSupervisor ord₂ anc with
      | some s₂ =>
        rw [detectSupervisor] at hs₁ hs₂
        rw [hs₁, hs₂] at hperm
        simp only [Option.map_some'] at hperm
        have hpair := Option.some.inj hperm
        exact ⟨congrArg Prod.fst hpair, congrArg Prod.snd hpair⟩
      | none =>
        rw [detectSupervisor] at hs₁ hs₂
        rw [hs₁, hs₂] at hperm
        cases hperm
    | none =>
      cases hs₂ : detectSupervisor ord₂ anc with
      | some s₂ =>
        rw [detectSupervisor] at hs₁ hs₂
        rw [hs₁, hs₂] at hperm
        cases hperm
      | none => exact ⟨rfl, rfl⟩

/-- Witness for C5 (amended) at the order-sensitive input: the Type still
agrees across the two enumeration orders. -/
theorem detect_deterministic_up_to_order_witness :
    (Detect .linux ll0 cg0 supervisors anc5).type =
      (Detect .linux ll0 cg0 supOrd2 anc5).type :=
  (detect_deterministic_up_to_order .linux ll0 cg0 supervisors supOrd2 anc5
    (List.Perm.refl _) (by decide)).1

lemma findSome?_cons_of_some {α β : Type} {f : α → Option β} {a : α} {l : List α} {b : β}
    (h : f a = some b) : (a :: l).findSome? f = some b := by
  rw [List.findSome?_cons, h]

/-- C9: when the topmost ancestor has identifier 1 and the platform's init
command name, `detectInit` matches: on darwin it returns the launchd service
label with confidence 0.9 when the enrichment lookup keyed by the target's
identifier yields a non-empty label, and falls back without error to the
generic launchd result with confidence 0.8 when the lookup returns no label;
on linux it returns systemd with confidence 0.8. -/
theorem detectInit_enrichment (ll : Int → String × String) (rest : List Proc) (p₀ t : Proc)
    (hpid : p₀.pid = 1) (htgt : (p₀ :: rest).getLast? = some t) :
    (p₀.command = "launchd" →
      (((ll t.pid).1 ≠ "" →
        detectInit .darwin ll (p₀ :: rest) =
          some { type := .launchd, name := (ll t.pid).1, confidence := 9/10
                 details := [("domain", (ll t.pid).2)] }) ∧
      ((ll t.pid).1 = "" →
        detectInit .darwin ll (p₀ :: rest) =
          some { type := .launchd, name := "launchd", confidence := 8/10, details := [] }))) ∧
    (p₀.command = "systemd" →
      detectInit .linux ll (p₀ :: rest) =
        some { type := .systemd, name := "systemd", confidence := 8/10, details := [] }) := by
  constructor
  · intro hcmd
    have hcond : p₀.pid = (1 : Int) ∧ p₀.command = "launchd" := ⟨hpid, hcmd⟩
    constructor
    · intro hlbl
      show detectInitDarwin ll (p₀ :: rest) = _
      rw [detectInitDarwin]
      apply findSome?_cons_of_some
      simp only [if_pos hcond, htgt]
      rw [if_pos hlbl]
    · intro hlbl
      show detectInitDarwin ll (p₀ :: rest) = _
      rw [detectInitDarwin]
      apply findSome?_cons_of_some
      simp only [if_pos hcond, htgt]
      rw [if_neg (by simp [hlbl])]
  · intro hcmd
    have hcond : p₀.pid = 1 ∧ p₀.command = "systemd" := ⟨hpid, hcmd⟩
    show detectInitLinux (p₀ :: rest) = _
    rw [detectInitLinux]
    apply findSome?_cons_of_some
    rw [if_pos hcond]

/-- Witness for C9: launchd as pid 1 with a resolvable service label for the
target pid 42 yields the enriched 0.9 result. -/
theorem detectInit_enrichment_witness :
    detectInit .darwin ll9 [launchdProc, t42] =
      some { type := .launchd, name := "com.example.app", confidence := 9/10
             details := [("domain", "system")] } :=
  ((detectInit_enrichment ll9 [t42] launchdProc t42 rfl rfl).1 rfl).1 (by decide)

lemma ite_list_cases {c : Prop} [Decidable c] (l : List String) :
    (if c then l else []) = [] ∨ (if c then l else []) = l := by
  by_cases h : c
  · rw [if_pos h]
    right
    rfl
  · rw [if_neg h]
    left
    rfl

lemma healthWarn_cases (t : Proc) :
    healthWarn t = [] ∨
    healthWarn t = ["Process is a zombie (defunct)"] ∨
    healthWarn t = ["Process is stopped"] ∨
    healthWarn t = ["Process is using high CPU (>2h total)"] ∨
    healthWarn t = ["Process is using high memory (>1GB RSS)"] := by
  rw [healthWarn]
  by_cases h1 : t.health = "zombie"
  · rw [if_pos h1]
    exact Or.inr (Or.inl rfl)
  · rw [if_neg h1]
    by_cases h2 : t.health = "stopped"
    · rw [if_pos h2]
      exact Or.inr (Or.inr (Or.inl rfl))
    · rw [if_neg h2]
      by_cases h3 : t.health = "high-cpu"
      · rw [if_pos h3]
        exact Or.inr (Or.inr (Or.inr (Or.inl rfl)))
      · rw [if_neg h3]
        by_cases h4 : t.health = "high-mem"
        · rw [if_pos h4]
          exact Or.inr (Or.inr (Or.inr (Or.inr rfl)))
        · rw [if_neg h4]
          exact Or.inl rfl

lemma dirWarn_cases (t : Proc) :
    dirWarn t = [] ∨
    dirWarn t = ["Process running from suspicious directory: /"] ∨
    dirWarn t = ["Process running from suspicious directory: /tmp"] ∨
    dirWarn t = ["Process running from suspicious directory: /var/tmp"] := by
  rw [dirWarn]
  by_cases h : t.workingDir = "/" ∨ t.workingDir = "/tmp" ∨ t.workingDir = "/var/tmp"
  · rw [if_pos h]
    rcases h with h | h | h
    · rw [h]
      exact Or.inr (Or.inl rfl)
    · rw [h]
      exact Or.inr (Or.inr (Or.inl rfl))
    · rw [h]
      exact Or.inr (Or.inr (Or.inr rfl))
  · rw [if_neg h]
    exact Or.inl rfl

lemma warnings_unfold {plat : Platform} {ll : Int → String × String} {cg : Int → Option String}
    {ord : List (String × String)} {now : Int} {anc : List Proc} {t : Proc}
    (hlast : anc.getLast? = some t) :
    Warnings plat ll cg ord now anc =
      healthWarn t ++ publicWarn t ++ rootWarn t ++ dirWarn t
        ++ ageWarn now t ++ unknownWarn plat ll cg ord anc := by
  rw [Warnings, hlast]

/-- C7 (amended): a target owned by root, bound to 0.0.0.0, healthy and
started 120 days ago yields exactly the public-exposure, root-privilege and
long-running warnings, in that order, with no health warning and no rule
suppressing another — provided the two attributes the scenario leaves
unstated are benign: the working directory is not on the deny-list and some
source is detected (otherwise the directory and provenance rules add their
own warnings). -/
theorem warnings_root_public_longrunning (plat : Platform) (ll : Int → String × String)
    (cg : Int → Option String) (ord : List (String × String)) (now : Int)
    (anc : List Proc) (t : Proc)
    (hlast : anc.getLast? = some t)
    (huser : t.user = "root")
    (hbind : t.bindAddresses = ["0.0.0.0"])
    (hhealth : t.health = "healthy")
    (hage : now - t.startedAt = 120 * 24 * 3600 * 1000000000)
    (hdir : t.workingDir ≠ "/" ∧ t.workingDir ≠ "/tmp" ∧ t.workingDir ≠ "/var/tmp")
    (hknown : (Detect plat ll cg ord anc).type ≠ .unknown) :
    Warnings plat ll cg ord now anc =
      ["Process is listening on a public interface",
       "Process is running as root",
       "Process has been running for over 90 days"] := by
  have hh : healthWarn t = [] := by
    rw [healthWarn, hhealth]
    decide
  have hp : publicWarn t = ["Process is listening on a public interface"] := by
    rw [publicWarn, hbind]
    decide
  have hro : rootWarn t = ["Process is running as root"] := by
    rw [rootWarn, if_pos huser]
  have hd : dirWarn t = [] := by
    rw [dirWarn, if_neg]
    intro hc
    rcases hc with hc | hc | hc
    · exact hdir.1 hc
    · exact hdir.2.1 hc
    · exact hdir.2.2 hc
  have ha : ageWarn now t = ["Process has been running for over 90 days"] := by
    rw [ageWarn, if_pos]
    rw [sinceHours, hage]
    norm_num
  have hu : unknownWarn plat ll cg ord anc = [] := by
    rw [unknownWarn, if_neg hknown]
  rw [warnings_unfold hlast, hh, hp, hro, hd, ha, hu]
  rfl

/-- C7 counterexample: a target with exactly the four stated attributes but
running from /tmp in an ancestry with no detectable source gets five
warnings, not the claimed three. -/
theorem warnings_root_public_longrunning_cex :
    tgt7tmp.user = "root" ∧ tgt7tmp.bindAddresses = ["0.0.0.0"] ∧
    tgt7tmp.health = "healthy" ∧
    now7 - tgt7tmp.startedAt = 120 * 24 * 3600 * 1000000000 ∧
    Warnings .linux ll0 cg0 supervisors now7 [tgt7tmp] ≠
      ["Process is listening on a public interface",
       "Process is running as root",
       "Process has been running for over 90 days"] := by
  refine ⟨rfl, rfl, rfl, by decide, ?_⟩
  have hW : Warnings .linux ll0 cg0 supervisors now7 [tgt7tmp] =
      healthWarn tgt7tmp ++ publicWarn tgt7tmp ++ rootWarn tgt7tmp ++ dirWarn tgt7tmp
        ++ ageWarn now7 tgt7tmp ++ unknownWarn .linux ll0 cg0 supervisors [tgt7tmp] :=
    warnings_unfold rfl
  have hh : healthWarn tgt7tmp = [] := by decide
  have hp : publicWarn tgt7tmp = ["Process is listening on a public interface"] := by decide
  have hro : rootWarn tgt7tmp = ["Process is running as root"] := by decide
  have hd : dirWarn tgt7tmp = ["Process running from suspicious directory: /tmp"] := by decide
  have ha : ageWarn now7 tgt7tmp = ["Process has been running for over 90 days"] := by
    rw [ageWarn, if_pos]
    rw [sinceHours]
    have hsub : now7 - tgt7tmp.startedAt = 10368000000000000 := by decide
    rw [hsub]
    norm_num
  have hu : unknownWarn .linux ll0 cg0 supervisors [tgt7tmp] =
      ["No known supervisor detected"] := by
    rw [unknownWarn, if_pos]
    decide
  rw [hW, hh, hp, hro, hd, ha, hu]
  decide

/-- Witness for C7 (amended) at the concrete scenario with a systemd parent. -/
theorem warnings_root_public_longrunning_witness :
    Warnings .linux ll0 cg0 supervisors now7 anc7 =
      ["Process is listening on a public interface",
       "Process is running as root",
       "Process has been running for over 90 days"] :=
  warnings_root_public_longrunning .linux ll0 cg0 supervisors now7 anc7 tgt7
    rfl rfl rfl rfl (by decide) (by decide) (by decide)

lemma isPublicBind_iff (addrs : List String) :
    isPublicBind addrs = true ↔ ∃ a ∈ addrs, a = "0.0.0.0" ∨ a = "::" := by
  rw [isPublicBind, List.any_eq_true]
  simp only [decide_eq_true_eq]

/-- C8: the public-exposure warning fires exactly when some bind address of
the target is the IPv4 any-address 0.0.0.0 or the IPv6 any-address ::; in
particular a target bound only to 127.0.0.1 never yields it and a target
bound to 0.0.0.0 always does. -/
theorem public_bind_warning_iff (plat : Platform) (ll : Int → String × String)
    (cg : Int → Option String) (ord : List (String × String)) (now : Int)
    (anc : List Proc) (t : Proc) (hlast : anc.getLast? = some t) :
    ("Process is listening on a public interface" ∈ Warnings plat ll cg ord now anc ↔
      ∃ a ∈ t.bindAddresses, a = "0.0.0.0" ∨ a = "::") ∧
    (t.bindAddresses = ["127.0.0.1"] →
      "Process is listening on a public interface" ∉ Warnings plat ll cg ord now anc) ∧
    (t.bindAddresses = ["0.0.0.0"] →
      "Process is listening on a public interface" ∈ Warnings plat ll cg ord now anc) := by
  have hmain : "Process is listening on a public interface" ∈ Warnings plat ll cg ord now anc ↔
      ∃ a ∈ t.bindAddresses, a = "0.0.0.0" ∨ a = "::" := by
    rw [warnings_unfold hlast, ← isPublicBind_iff]
    simp only [List.mem_append]
    constructor
    · rintro (((((h | h) | h) | h) | h) | h)
      · rcases healthWarn_cases t with hc | hc | hc | hc | hc <;> rw [hc] at h <;>
          first
            | exact absurd h (List.not_mem_nil _)
            | exact absurd h (by decide)
      · rw [publicWarn] at h
        by_cases hb : isPublicBind t.bindAddresses = true
        · exact hb
        · rw [if_neg hb] at h
          exact absurd h (List.not_mem_nil _)
      · rw [rootWarn] at h
        by_cases hc : t.user = "root"
        · rw [if_pos hc] at h
          exact absurd h (by decide)
        · rw [if_neg hc] at h
          exact absurd h (List.not_mem_nil _)
      · rcases dirWarn_cases t with hc | hc | hc | hc <;> rw [hc] at h <;>
          first
            | exact absurd h (List.not_mem_nil _)
            | exact absurd h (by decide)
      · rw [ageWarn] at h
        by_cases hc : sinceHours now t.startedAt > 90 * 24
        · rw [if_pos hc] at h
          exact absurd h (by decide)
        · rw [if_neg hc] at h
          exact absurd h (List.not_mem_nil _)
      · rw [unknownWarn] at h
        by_cases hc : (Detect plat ll cg ord anc).type = .unknown
        · rw [if_pos hc] at h
          exact absurd h (by decide)
        · rw [if_neg hc] at h
          exact absurd h (List.not_mem_nil _)
    · intro hb
      refine Or.inl (Or.inl (Or.inl (Or.inl (Or.inr ?_))))
      rw [publicWarn, if_pos hb]
      exact List.mem_singleton.mpr rfl
  refine ⟨hmain, ?_, ?_⟩
  · intro hb hmem
    obtain ⟨a, ha, hor⟩ := hmain.mp hmem
    rw [hb] at ha
    rw [List.mem_singleton] at ha
    subst ha
    exact absurd hor (by decide)
  · intro hb
    apply hmain.mpr
    rw [hb]
    exact ⟨"0.0.0.0", List.mem_singleton.mpr rfl, Or.inl rfl⟩

/-- Witness for C8: the scenario target bound to 0.0.0.0 produces the
public-exposure warning. -/
theorem public_bind_warning_iff_witness :
    "Process is listening on a public interface" ∈
      Warnings .linux ll0 cg0 supervisors now7 anc7 :=
  (public_bind_warning_iff .linux ll0 cg0 supervisors now7 anc7 tgt7 rfl).2.2 rfl
